import Mathlib

/-!
Verification development for the somars-vision perception pipeline
(`main.py`, `telemetry.py`).  Python code is shallowly embedded: floats are
modelled as exact rationals (`ℚ`), machine integers as `Nat`/`Int` with
explicit `% 2^32` where the code masks, fallible calls as `Option`/`Except`,
and the per-thread loops as folds or structural recursion over the sequence
of events the loop consumes.
-/

namespace SomarsVision

/-! ## Hand-off queue (`queue.Queue(maxsize=1)` used in `main.py`)

`run_cam_in_thread` (main.py lines 89-99) and the display publish in
`run_tracker_in_thread` (lines 172-181) both use the same evict-then-insert
publishing policy on a `Queue(maxsize=1)`:

    if q.full():
        try: q.get_nowait()
        except Empty: pass
    try: q.put_nowait(item)
    except Full: pass

We model the Python `queue.Queue` as a FIFO list plus its `maxsize`. -/

structure BQueue (α : Type) where
  items : List α
  maxsize : Nat
  deriving Repr, DecidableEq

/-- Python `Queue.full()`: `0 < maxsize <= qsize()`. -/
def BQueue.full (q : BQueue α) : Bool :=
  decide (0 < q.maxsize ∧ q.maxsize ≤ q.items.length)

/-- Python `Queue.get_nowait()`: `none` models the `Empty` exception;
otherwise removes and returns the oldest item. -/
def BQueue.get_nowait (q : BQueue α) : Option (α × BQueue α) :=
  match q.items with
  | [] => none
  | x :: xs => some (x, ⟨xs, q.maxsize⟩)

/-- Python `Queue.put_nowait(x)`: `none` models the `Full` exception;
otherwise appends `x`. -/
def BQueue.put_nowait (q : BQueue α) (x : α) : Option (BQueue α) :=
  if 0 < q.maxsize ∧ q.maxsize ≤ q.items.length then none
  else some ⟨q.items ++ [x], q.maxsize⟩

/-- The producer-side publish of main.py lines 89-99 (identical code at
lines 172-181): evict the resident item if the queue is full, then try a
non-blocking insert, swallowing `Empty` and `Full`. -/
def publish (q : BQueue α) (x : α) : BQueue α :=
  let q1 := if q.full then
              match q.get_nowait with
              | some (_, r) => r
              | none => q
            else q
  match q1.put_nowait x with
  | some q2 => q2
  | none => q1

/-- A burst of publishes with no intervening consumption. -/
def publishAll (q : BQueue α) (xs : List α) : BQueue α :=
  xs.foldl publish q

lemma publish_eq_single (q : BQueue α) (h1 : q.maxsize = 1)
    (h2 : q.items.length ≤ 1) (x : α) : publish q x = ⟨[x], 1⟩ := by
  obtain ⟨items, maxsize⟩ := q
  subst h1
  match items with
  | [] =>
      simp [publish, BQueue.full, BQueue.get_nowait, BQueue.put_nowait]
  | [y] =>
      simp [publish, BQueue.full, BQueue.get_nowait, BQueue.put_nowait]
  | y :: z :: rest =>
      simp at h2

lemma publishAll_cons_eq (xs : List α) : ∀ (x : α) (q : BQueue α),
    q.maxsize = 1 → q.items.length ≤ 1 →
    publishAll q (x :: xs) = ⟨[(x :: xs).getLast (by simp)], 1⟩ := by
  induction xs with
  | nil =>
      intro x q h1 h2
      simp [publishAll, publish_eq_single q h1 h2 x]
  | cons y ys ih =>
      intro x q h1 h2
      have hstep : publishAll q (x :: y :: ys) = publishAll ⟨[x], 1⟩ (y :: ys) := by
        simp [publishAll, publish_eq_single q h1 h2 x]
      rw [hstep, ih y ⟨[x], 1⟩ rfl (by simp)]
      simp [List.getLast_cons]

/-- Claim C1: the capacity-1 hand-off queue between a Frame Source Task and
its Detection Task (and the detect-to-display queue, which uses the same
code) never holds more than one item after any burst of publishes; the
publish path is built only from the non-blocking `get_nowait`/`put_nowait`
operations, and after any non-empty burst of publishes faster than
consumption the consumer's next take returns exactly the most recently
published item, so an evicted item is never delivered. -/
theorem handoff_slot_freshness (q : BQueue α) (h1 : q.maxsize = 1)
    (h2 : q.items.length ≤ 1) (xs : List α) (hne : xs ≠ []) :
    (publishAll q xs).items.length ≤ 1 ∧
    (publishAll q xs).get_nowait =
      xs.getLast?.map (fun v => (v, (⟨[], 1⟩ : BQueue α))) := by
  match xs, hne with
  | x :: rest, _ =>
      rw [publishAll_cons_eq rest x q h1 h2]
      refine ⟨by simp, ?_⟩
      rw [List.getLast?_eq_getLast (x :: rest) (by simp)]
      simp [BQueue.get_nowait]

/-- Witness for C1: starting from a queue already holding a stale item,
publishing `[1, 2, 3]` leaves exactly the freshest item `3`, which is what
the consumer receives. -/
theorem handoff_slot_freshness_witness :
    (publishAll (⟨[5], 1⟩ : BQueue Nat) [1, 2, 3]).items.length ≤ 1 ∧
    (publishAll (⟨[5], 1⟩ : BQueue Nat) [1, 2, 3]).get_nowait =
      ([1, 2, 3] : List Nat).getLast?.map
        (fun v => (v, (⟨[], 1⟩ : BQueue Nat))) :=
  handoff_slot_freshness ⟨[5], 1⟩ rfl (by decide) [1, 2, 3] (by decide)

/-! ## Inbound command-signal decoder (`telemetry.get_signal`, lines 148-169)

The drain loop keeps a running `newest` token, updated by

    if newest != "generate" and (text == "generate" or newest != "picture"):
        newest = text

over the lowercase-trimmed text of every pending STATUSTEXT message. -/

/-- One update step of the `newest` accumulator in `get_signal`. -/
def signal_step (newest text : String) : String :=
  if newest ≠ "generate" ∧ (text = "generate" ∨ newest ≠ "picture") then text
  else newest

/-- `get_signal`, modelled on the list of lowercase-trimmed tokens drained
in one poll (the connection and message-extraction plumbing is external). -/
def get_signal (msgs : List String) : String :=
  msgs.foldl signal_step ""

lemma foldl_signal_step_generate (ts : List String) :
    ts.foldl signal_step "generate" = "generate" := by
  induction ts with
  | nil => rfl
  | cons t ts ih => simpa [signal_step] using ih

/-- Claim C4: the decoder returns the running most-relevant token: once
"generate" has been retained it is never overwritten by any later token;
while "picture" is retained it is overwritten only by "generate"; and the
two concrete drains of the spec decode to "generate" and "picture"
respectively. -/
theorem get_signal_precedence :
    (∀ ts : List String, ts.foldl signal_step "generate" = "generate") ∧
    (∀ t : String, t ≠ "generate" → signal_step "picture" t = "picture") ∧
    signal_step "picture" "generate" = "generate" ∧
    get_signal ["hello", "picture", "other", "generate", "picture"] = "generate" ∧
    get_signal ["picture", "other"] = "picture" := by
  refine ⟨foldl_signal_step_generate, ?_, by decide, by decide, by decide⟩
  intro t ht
  simp [signal_step, ht]

/-- Witness for C4: instantiates the precedence properties at concrete
tokens. -/
theorem get_signal_precedence_witness :
    ("generate" :: ["x"]).foldl signal_step "generate" = "generate" ∧
    signal_step "picture" "other" = "picture" :=
  ⟨get_signal_precedence.1 ["generate", "x"],
   get_signal_precedence.2.1 "other" (by decide)⟩

/-! ## Displayed frame rate (`main.py` lines 160-161)

    elapsed = end_time - start_time
    fps: float = round(1 / elapsed, 2) if elapsed > 1e-6 else 0.0

Python `round(x, 2)` rounds half to even; we model it exactly on `ℚ`. -/

/-- Python `round(·)` to an integer: round half to even. -/
def round_half_even (x : ℚ) : ℤ :=
  let f : ℤ := ⌊x⌋
  let r : ℚ := x - f
  if r < 1/2 then f
  else if 1/2 < r then f + 1
  else if f % 2 = 0 then f else f + 1

/-- Python `round(x, 2)`. -/
def round2 (x : ℚ) : ℚ :=
  (round_half_even (x * 100) : ℚ) / 100

/-- The displayed instantaneous rate of main.py line 161. -/
def fps_display (elapsed : ℚ) : ℚ :=
  if elapsed > 1/1000000 then round2 (1 / elapsed) else 0

/-- Claim C7: the displayed rate is `1 / elapsed` rounded to two decimals
whenever `elapsed` exceeds the stability floor `1e-6` (and in that branch
the divisor is provably non-zero, so no division fault), and is `0` whenever
`elapsed` is at or below the floor — in particular whenever it is
non-positive; elapsed `0.1` displays `10.0` and elapsed `0` displays `0`. -/
theorem fps_display_spec (e : ℚ) :
    (e > 1/1000000 → fps_display e = round2 (1 / e) ∧ e ≠ 0) ∧
    (e ≤ 1/1000000 → fps_display e = 0) ∧
    fps_display (1/10) = 10 ∧ fps_display 0 = 0 := by
  refine ⟨?_, ?_, ?_, ?_⟩
  · intro h
    refine ⟨?_, ?_⟩
    · unfold fps_display
      rw [if_pos h]
    · intro h0
      rw [h0] at h
      norm_num at h
  · intro h
    unfold fps_display
    rw [if_neg (not_lt.mpr h)]
  · unfold fps_display
    rw [if_pos (by norm_num)]
    norm_num [round2, round_half_even]
  · unfold fps_display
    rw [if_neg (by norm_num)]

/-- Witness for C7: discharges the hypotheses at elapsed times `1/10`
and `0`. -/
theorem fps_display_spec_witness :
    fps_display (1/10) = round2 (1 / (1/10)) ∧ fps_display 0 = 0 :=
  ⟨((fps_display_spec (1/10)).1 (by norm_num)).1,
   (fps_display_spec 0).2.1 (by norm_num)⟩

/-! ## Telemetry encoder (`telemetry.py`)

`add_results` (lines 53-98) scans all detections, keeping per class id in
`{0, 1}` the best confidence seen so far, initialised to
`MIN_CONFIDENCE = 0.5` and updated with a strict `>` comparison; it then
emits exactly one telemetry send per class.  Detections are modelled by
their confidence, class id and bounding-box center. -/

/-- `telemetry.MIN_CONFIDENCE`. -/
def MIN_CONFIDENCE : ℚ := 1/2

structure Det where
  conf : ℚ
  cls : Int
  cx : ℚ
  cy : ℚ
  deriving Repr, DecidableEq

/-- Modelled from the spec: `util.get_x_offset_deg` (the module `util.py` is
imported by `telemetry.py` but absent from the sources).  Per §4.3 the x
offset is the angular offset of the box center from the frame midpoint,
a linear interpolation of the pixel offset over the camera field of view. -/
def get_x_offset_deg (cx width fov : ℚ) : ℚ :=
  (cx - width / 2) / width * fov

/-- Modelled from the spec: `util.get_y_offset_deg`, as `get_x_offset_deg`
but over the frame height and vertical field of view. -/
def get_y_offset_deg (cy height fov : ℚ) : ℚ :=
  (cy - height / 2) / height * fov

/-- Camera geometry configuration used by the offset computation. -/
structure CamCfg where
  w : ℚ
  h : ℚ
  fovx : ℚ
  fovy : ℚ
  deriving Repr, DecidableEq

/-- One per-class accumulator cell: `(best_conf[c], best_info[c])` of
`add_results` lines 61-62. -/
abbrev Slot := ℚ × Option Det

/-- The inner-loop update of `add_results` lines 76-80 for both class
cells at once: `if 0 <= cls_id < NUM_CLASSES and conf > best_conf[cls_id]`
then record the new best. -/
def scan_det (st : Slot × Slot) (d : Det) : Slot × Slot :=
  if d.cls = 0 then
    (if d.conf > st.1.1 then (d.conf, some d) else st.1, st.2)
  else if d.cls = 1 then
    (st.1, if d.conf > st.2.1 then (d.conf, some d) else st.2)
  else st

/-- The same update restricted to the cell of a single class `c`. -/
def scan_slot (c : Int) (s : Slot) (d : Det) : Slot :=
  if d.cls = c ∧ d.conf > s.1 then (d.conf, some d) else s

/-- The scan of `add_results` lines 64-80 over the list of `Results`, each
carrying its list of boxes. -/
def scan_results (results : List (List Det)) : Slot × Slot :=
  results.foldl (fun st boxes => boxes.foldl scan_det st)
    ((MIN_CONFIDENCE, none), (MIN_CONFIDENCE, none))

/-- The outbound unit of §3: one class's worth of telemetry. -/
structure TelemetryFrame where
  x : ℚ
  y : ℚ
  cls : Int
  latency : ℚ
  detected : Bool
  deriving Repr, DecidableEq

/-- The per-class send of `add_results` lines 83-98:
`send_telemetry_data(0, 0, i, 0, False)` when no best detection was kept,
`send_telemetry_data(x, y, cls_id, latency, True)` otherwise. -/
def frame_for (c : Int) (s : Slot) (start now : ℚ) (cam : CamCfg) : TelemetryFrame :=
  match s.2 with
  | none => ⟨0, 0, c, 0, false⟩
  | some d => ⟨get_x_offset_deg d.cx cam.w cam.fovx,
               get_y_offset_deg d.cy cam.h cam.fovy, c, now - start, true⟩

/-- `telemetry.add_results` (lines 53-98), returning the list of telemetry
frames it emits: exactly one per class id, class 0 first.  `start` is the
frame capture time and `now` the wall clock at send time. -/
def add_results (results : List (List Det)) (start now : ℚ)
    (cam : CamCfg) : List TelemetryFrame :=
  let st := scan_results results
  [frame_for 0 st.1 start now cam, frame_for 1 st.2 start now cam]

lemma scan_det_proj (st : Slot × Slot) (d : Det) :
    scan_det st d = (scan_slot 0 st.1 d, scan_slot 1 st.2 d) := by
  by_cases h0 : d.cls = 0
  · by_cases hc : d.conf > st.1.1
    · simp [scan_det, scan_slot, h0, hc]
    · simp [scan_det, scan_slot, h0, hc]
  · by_cases h1 : d.cls = 1
    · by_cases hc : d.conf > st.2.1
      · simp [scan_det, scan_slot, h0, h1, hc]
      · simp [scan_det, scan_slot, h0, h1, hc]
    · simp [scan_det, scan_slot, h0, h1]

lemma foldl_scan_det_proj (dets : List Det) : ∀ st : Slot × Slot,
    dets.foldl scan_det st =
      (dets.foldl (scan_slot 0) st.1, dets.foldl (scan_slot 1) st.2) := by
  induction dets with
  | nil => intro st; rfl
  | cons d rest ih =>
      intro st
      simp only [List.foldl_cons, scan_det_proj st d]
      exact ih _

lemma scan_results_eq_flatten (results : List (List Det)) :
    scan_results results =
      (results.flatten.foldl (scan_slot 0) (MIN_CONFIDENCE, none),
       results.flatten.foldl (scan_slot 1) (MIN_CONFIDENCE, none)) := by
  unfold scan_results
  rw [← List.foldl_flatten scan_det ((MIN_CONFIDENCE, none), (MIN_CONFIDENCE, none)) results]
  exact foldl_scan_det_proj results.flatten _

/-- Invariant of the per-class scan: the cell either still holds the floor
sentinel with no retained detection — in which case every detection of that
class seen so far is at or below the floor — or it holds a retained
detection of that class whose confidence is strictly above the floor,
equals the cell confidence, and is maximal among the class's detections. -/
def slot_inv (c : Int) (dets : List Det) (s : Slot) : Prop :=
  MIN_CONFIDENCE ≤ s.1 ∧
  (s.2 = none → s.1 = MIN_CONFIDENCE ∧
    ∀ d ∈ dets, d.cls = c → d.conf ≤ MIN_CONFIDENCE) ∧
  (∀ b, s.2 = some b → b ∈ dets ∧ b.cls = c ∧ b.conf = s.1 ∧
    MIN_CONFIDENCE < b.conf ∧ ∀ d ∈ dets, d.cls = c → d.conf ≤ b.conf)

lemma slot_inv_step {c : Int} {dets : List Det} {s : Slot} (d : Det)
    (h : slot_inv c dets s) : slot_inv c (dets ++ [d]) (scan_slot c s d) := by
  obtain ⟨hle, hnone, hsome⟩ := h
  by_cases hcond : d.cls = c ∧ d.conf > s.1
  · unfold scan_slot
    rw [if_pos hcond]
    refine ⟨le_of_lt (lt_of_le_of_lt hle hcond.2), by simp, ?_⟩
    intro b hb
    obtain rfl : d = b := by simpa using hb
    refine ⟨by simp, hcond.1, rfl, lt_of_le_of_lt hle hcond.2, ?_⟩
    intro d' hd' hcls
    rcases List.mem_append.mp hd' with hmem | hmem
    · match hs : s.2 with
      | none =>
          have := (hnone hs).2 d' hmem hcls
          exact le_of_lt (lt_of_le_of_lt (le_trans this ((hnone hs).1 ▸ le_refl _)) hcond.2)
      | some b0 =>
          have hmax := (hsome b0 hs).2.2.2.2 d' hmem hcls
          have hb0 := (hsome b0 hs).2.2.1
          exact le_of_lt (lt_of_le_of_lt (hb0 ▸ hmax) hcond.2)
    · obtain rfl : d' = d := by simpa using hmem
      exact le_refl _
  · unfold scan_slot
    rw [if_neg hcond]
    refine ⟨hle, ?_, ?_⟩
    · intro hs
      refine ⟨(hnone hs).1, ?_⟩
      intro d' hd' hcls
      rcases List.mem_append.mp hd' with hmem | hmem
      · exact (hnone hs).2 d' hmem hcls
      · obtain rfl : d' = d := by simpa using hmem
        have : ¬ d'.conf > s.1 := fun hgt => hcond ⟨hcls, hgt⟩
        exact le_trans (not_lt.mp this) ((hnone hs).1 ▸ le_refl _)
    · intro b hb
      obtain ⟨hmem, hcls, hconf, hgt, hmax⟩ := hsome b hb
      refine ⟨List.mem_append.mpr (Or.inl hmem), hcls, hconf, hgt, ?_⟩
      intro d' hd' hcls'
      rcases List.mem_append.mp hd' with hmem' | hmem'
      · exact hmax d' hmem' hcls'
      · obtain rfl : d' = d := by simpa using hmem'
        have : ¬ d'.conf > s.1 := fun hgt' => hcond ⟨hcls', hgt'⟩
        exact hconf ▸ not_lt.mp this

lemma slot_inv_foldl {c : Int} (dets : List Det) : ∀ (pre : List Det) (s : Slot),
    slot_inv c pre s → slot_inv c (pre ++ dets) (dets.foldl (scan_slot c) s) := by
  induction dets with
  | nil => intro pre s h; simpa using h
  | cons d rest ih =>
      intro pre s h
      have h1 := slot_inv_step d h
      have h2 := ih (pre ++ [d]) (scan_slot c s d) h1
      simpa using h2

lemma slot_inv_scan {c : Int} (dets : List Det) :
    slot_inv c dets (dets.foldl (scan_slot c) (MIN_CONFIDENCE, none)) := by
  have := slot_inv_foldl (c := c) dets [] (MIN_CONFIDENCE, none)
    ⟨le_refl _, fun _ => ⟨rfl, by simp⟩, by simp⟩
  simpa using this

/-- The characterisation used by the claim theorems: the retained cell of
class `c` is empty exactly when no detection of that class is strictly
above the floor, and otherwise holds a maximal detection strictly above
the floor. -/
lemma scan_slot_best (c : Int) (dets : List Det) :
    ((dets.foldl (scan_slot c) (MIN_CONFIDENCE, none)).2 = none ↔
      ∀ d ∈ dets, d.cls = c → d.conf ≤ MIN_CONFIDENCE) ∧
    (∀ b, (dets.foldl (scan_slot c) (MIN_CONFIDENCE, none)).2 = some b →
      b ∈ dets ∧ b.cls = c ∧ MIN_CONFIDENCE < b.conf ∧
        ∀ d ∈ dets, d.cls = c → d.conf ≤ b.conf) := by
  obtain ⟨hle, hnone, hsome⟩ := slot_inv_scan (c := c) dets
  constructor
  · constructor
    · intro hs
      exact (hnone hs).2
    · intro hall
      match hs : (dets.foldl (scan_slot c) (MIN_CONFIDENCE, none)).2 with
      | none => rfl
      | some b =>
          obtain ⟨hmem, hcls, _, hgt, _⟩ := hsome b hs
          exact absurd (hall b hmem hcls) (not_le.mpr hgt)
  · intro b hb
    obtain ⟨hmem, hcls, _, hgt, hmax⟩ := hsome b hb
    exact ⟨hmem, hcls, hgt, hmax⟩

lemma frame_for_detected_iff (c : Int) (L : List Det) (start now : ℚ) (cam : CamCfg) :
    ((frame_for c (L.foldl (scan_slot c) (MIN_CONFIDENCE, none)) start now cam).detected = true ↔
      ∃ d ∈ L, d.cls = c ∧ MIN_CONFIDENCE < d.conf) ∧
    ((frame_for c (L.foldl (scan_slot c) (MIN_CONFIDENCE, none)) start now cam).detected = false →
      frame_for c (L.foldl (scan_slot c) (MIN_CONFIDENCE, none)) start now cam =
        ⟨0, 0, c, 0, false⟩) := by
  obtain ⟨hiff, hsome⟩ := scan_slot_best c L
  cases hs : (L.foldl (scan_slot c) (MIN_CONFIDENCE, none)).2 with
  | none =>
      have hall := hiff.mp hs
      constructor
      · simp only [frame_for, hs, Bool.false_eq_true, false_iff]
        rintro ⟨d, hd, hcls, hlt⟩
        exact absurd (hall d hd hcls) (not_le.mpr hlt)
      · intro _
        simp [frame_for, hs]
  | some b =>
      obtain ⟨hmem, hcls, hgt, _⟩ := hsome b hs
      constructor
      · simp only [frame_for, hs, true_iff]
        exact ⟨b, hmem, hcls, hgt⟩
      · intro hdet
        simp [frame_for, hs] at hdet

/-- Claim C2 counterexample: for a single detection of class 0 whose
confidence equals the floor `0.5` exactly, the encoder emits a
not-detected frame for class 0 (the claim asserts a detection exactly at
the floor qualifies as detected). -/
theorem add_results_floor_counterexample :
    (add_results [[⟨1/2, 0, 320, 240⟩]] 0 1 ⟨640, 480, 60, 40⟩).map
      TelemetryFrame.detected = [false, false] := by
  norm_num [add_results, scan_results, scan_det, frame_for, MIN_CONFIDENCE]

/-- Claim C2 (amended): for each tracked class in `{0, 1}` the encoder
selects as the basis of that class's TelemetryFrame the detection with the
highest confidence **strictly above** the floor `0.5`; a detection exactly
at the floor does not qualify, and the not-detected frame is emitted
exactly when no detection of the class strictly exceeds the floor. -/
theorem add_results_best_per_class (results : List (List Det)) (start now : ℚ)
    (cam : CamCfg) :
    ((scan_results results).1.2 = none ↔
        ∀ d ∈ results.flatten, d.cls = 0 → d.conf ≤ MIN_CONFIDENCE) ∧
    ((scan_results results).2.2 = none ↔
        ∀ d ∈ results.flatten, d.cls = 1 → d.conf ≤ MIN_CONFIDENCE) ∧
    (∀ b, (scan_results results).1.2 = some b →
        b ∈ results.flatten ∧ b.cls = 0 ∧ MIN_CONFIDENCE < b.conf ∧
        (∀ d ∈ results.flatten, d.cls = 0 → d.conf ≤ b.conf) ∧
        (add_results results start now cam).head? =
          some ⟨get_x_offset_deg b.cx cam.w cam.fovx,
                get_y_offset_deg b.cy cam.h cam.fovy, 0, now - start, true⟩) ∧
    (∀ b, (scan_results results).2.2 = some b →
        b ∈ results.flatten ∧ b.cls = 1 ∧ MIN_CONFIDENCE < b.conf ∧
        (∀ d ∈ results.flatten, d.cls = 1 → d.conf ≤ b.conf) ∧
        (add_results results start now cam)[1]? =
          some ⟨get_x_offset_deg b.cx cam.w cam.fovx,
                get_y_offset_deg b.cy cam.h cam.fovy, 1, now - start, true⟩) ∧
    ((scan_results results).1.2 = none →
        (add_results results start now cam).head? = some ⟨0, 0, 0, 0, false⟩) ∧
    ((scan_results results).2.2 = none →
        (add_results results start now cam)[1]? = some ⟨0, 0, 1, 0, false⟩) := by
  have hsc := scan_results_eq_flatten results
  have h0 := scan_slot_best 0 results.flatten
  have h1 := scan_slot_best 1 results.flatten
  have hp1 : (scan_results results).1 =
      results.flatten.foldl (scan_slot 0) (MIN_CONFIDENCE, none) := by rw [hsc]
  have hp2 : (scan_results results).2 =
      results.flatten.foldl (scan_slot 1) (MIN_CONFIDENCE, none) := by rw [hsc]
  refine ⟨by rw [hp1]; exact h0.1, by rw [hp2]; exact h1.1, ?_, ?_, ?_, ?_⟩
  · intro b hb
    rw [hp1] at hb
    obtain ⟨hmem, hcls, hgt, hmax⟩ := h0.2 b hb
    refine ⟨hmem, hcls, hgt, hmax, ?_⟩
    simp [add_results, hp1, hb, frame_for]
  · intro b hb
    rw [hp2] at hb
    obtain ⟨hmem, hcls, hgt, hmax⟩ := h1.2 b hb
    refine ⟨hmem, hcls, hgt, hmax, ?_⟩
    simp [add_results, hp2, hb, frame_for]
  · intro hb
    rw [hp1] at hb
    simp [add_results, hp1, hb, frame_for]
  · intro hb
    rw [hp2] at hb
    simp [add_results, hp2, hb, frame_for]

/-- Witness for the amended C2: at a single class-0 detection with
confidence `0.9` the selected basis is that detection, strictly above the
floor. -/
theorem add_results_best_per_class_witness :
    ((⟨9/10, 0, 320, 240⟩ : Det) ∈
        ([[(⟨9/10, 0, 320, 240⟩ : Det)]] : List (List Det)).flatten) ∧
    MIN_CONFIDENCE < (⟨9/10, 0, 320, 240⟩ : Det).conf := by
  have hb : (scan_results [[(⟨9/10, 0, 320, 240⟩ : Det)]]).1.2 =
      some ⟨9/10, 0, 320, 240⟩ := by
    norm_num [scan_results, scan_det, MIN_CONFIDENCE]
  have h := (add_results_best_per_class [[⟨9/10, 0, 320, 240⟩]] 0 1
    ⟨640, 480, 60, 40⟩).2.2.1 ⟨9/10, 0, 320, 240⟩ hb
  exact ⟨h.1, h.2.2.1⟩

/-- Claim C3: every call of the encoder emits exactly one TelemetryFrame
per tracked class — a two-element list, class 0 then class 1; a frame is
detected exactly when a qualifying detection of its class exists, and a
not-detected frame is `(0, 0, class, 0, false)`; on the spec's concrete
DetectionSet (classes `{0,1}`, confidences `{0.9, 0.3}`, floor `0.5`)
exactly one detected frame for class 0 and one not-detected frame for
class 1 are emitted. -/
theorem add_results_one_frame_per_class (results : List (List Det))
    (start now : ℚ) (cam : CamCfg) :
    (add_results results start now cam).length = 2 ∧
    (add_results results start now cam).map TelemetryFrame.cls = [0, 1] ∧
    (∀ f0, (add_results results start now cam).head? = some f0 →
      (f0.detected = true ↔
        ∃ d ∈ results.flatten, d.cls = 0 ∧ MIN_CONFIDENCE < d.conf) ∧
      (f0.detected = false → f0 = ⟨0, 0, 0, 0, false⟩)) ∧
    (∀ f1, (add_results results start now cam)[1]? = some f1 →
      (f1.detected = true ↔
        ∃ d ∈ results.flatten, d.cls = 1 ∧ MIN_CONFIDENCE < d.conf) ∧
      (f1.detected = false → f1 = ⟨0, 0, 1, 0, false⟩)) ∧
    (add_results [[⟨9/10, 0, 320, 240⟩, ⟨3/10, 1, 100, 100⟩]] 0 1
        ⟨640, 480, 60, 40⟩).map (fun f => (f.cls, f.detected)) =
      [(0, true), (1, false)] ∧
    (add_results [[⟨9/10, 0, 320, 240⟩, ⟨3/10, 1, 100, 100⟩]] 0 1
        ⟨640, 480, 60, 40⟩)[1]? = some ⟨0, 0, 1, 0, false⟩ := by
  have hadd : add_results results start now cam =
      [frame_for 0 (results.flatten.foldl (scan_slot 0) (MIN_CONFIDENCE, none))
         start now cam,
       frame_for 1 (results.flatten.foldl (scan_slot 1) (MIN_CONFIDENCE, none))
         start now cam] := by
    unfold add_results
    rw [scan_results_eq_flatten]
  refine ⟨by rw [hadd]; rfl, ?_, ?_, ?_, ?_, ?_⟩
  · rw [hadd]
    cases hs0 : (results.flatten.foldl (scan_slot 0) (MIN_CONFIDENCE, none)).2 <;>
      cases hs1 : (results.flatten.foldl (scan_slot 1) (MIN_CONFIDENCE, none)).2 <;>
      simp [frame_for, hs0, hs1]
  · intro f0 hf0
    rw [hadd] at hf0
    simp only [List.head?_cons, Option.some.injEq] at hf0
    rw [← hf0]
    exact frame_for_detected_iff 0 results.flatten start now cam
  · intro f1 hf1
    rw [hadd] at hf1
    simp only [List.getElem?_cons_succ, List.getElem?_cons_zero,
      Option.some.injEq] at hf1
    rw [← hf1]
    exact frame_for_detected_iff 1 results.flatten start now cam
  · norm_num [add_results, scan_results, scan_det, frame_for, MIN_CONFIDENCE]
  · norm_num [add_results, scan_results, scan_det, frame_for, MIN_CONFIDENCE]

/-- Witness for C3: length and class fields at a concrete DetectionSet. -/
theorem add_results_one_frame_per_class_witness :
    (add_results [[⟨9/10, 0, 320, 240⟩, ⟨3/10, 1, 100, 100⟩]] 0 1
        ⟨640, 480, 60, 40⟩).length = 2 ∧
    (add_results [[⟨9/10, 0, 320, 240⟩, ⟨3/10, 1, 100, 100⟩]] 0 1
        ⟨640, 480, 60, 40⟩).map TelemetryFrame.cls = [0, 1] :=
  ⟨(add_results_one_frame_per_class [[⟨9/10, 0, 320, 240⟩, ⟨3/10, 1, 100, 100⟩]]
      0 1 ⟨640, 480, 60, 40⟩).1,
   (add_results_one_frame_per_class [[⟨9/10, 0, 320, 240⟩, ⟨3/10, 1, 100, 100⟩]]
      0 1 ⟨640, 480, 60, 40⟩).2.1⟩

/-! ## Outbound MAVLink send (`telemetry.py` lines 21-33 and 100-126)

`name_bytes` encodes a field name as exactly 10 ASCII bytes (encode with
errors ignored, truncate to 10, null-pad).  `send_telemetry_data` lazily
obtains the connection via `ensure_mavlink` (returning with nothing sent
if that yields `None`), computes one shared 32-bit millisecond timestamp,
and sends the four field messages in order inside a single `try` whose
`except` swallows any error, so the function always returns normally. -/

/-- `telemetry.name_bytes` (lines 100-102): ASCII-encode dropping
non-ASCII characters, truncate to 10 bytes, null-pad to 10 bytes. -/
def name_bytes (s : String) : List Nat :=
  let b := ((s.data.map Char.toNat).filter (fun ch => ch < 128)).take 10
  b ++ List.replicate (10 - b.length) 0

/-- A `named_value_float` / `named_value_int` payload value. -/
inductive MavVal where
  | f (v : ℚ)
  | i (v : Int)
  deriving Repr, DecidableEq

/-- One outbound MAVLink message of `send_telemetry_data`. -/
structure MavMsg where
  time_boot_ms : Nat
  name : List Nat
  val : MavVal
  deriving Repr, DecidableEq

/-- The four messages of one TelemetryFrame send (lines 117-123).
`now_ms` is the wall clock in integer milliseconds since epoch; the code
computes `int(time.time() * 1000) & 0xFFFFFFFF` once and reuses it. -/
def telemetry_msgs (now_ms : Nat) (x y lat : ℚ) (obj_cls : Nat)
    (detected : Bool) : List MavMsg :=
  let t := now_ms % 2^32
  [⟨t, name_bytes ("vis_x" ++ toString obj_cls), MavVal.f x⟩,
   ⟨t, name_bytes ("vis_y" ++ toString obj_cls), MavVal.f y⟩,
   ⟨t, name_bytes ("vis_lat" ++ toString obj_cls), MavVal.f lat⟩,
   ⟨t, name_bytes ("vis_det" ++ toString obj_cls),
     MavVal.i (if detected then 1 else 0)⟩]

/-- `telemetry.ensure_mavlink` (lines 21-33): reuse the cached connection
if present, else the outcome of one connection attempt (`none` models the
caught exception path). -/
def ensure_mavlink (cur : Option Unit) (connect_result : Option Unit) :
    Option Unit :=
  match cur with
  | some c => some c
  | none => connect_result

/-- `telemetry.send_telemetry_data` (lines 104-126), returning the updated
connection cache and the list of messages actually transmitted.  `fail_at`
is the index of the first of the four sends to raise, if any; the Python
`except` swallows the error, so the embedding is a total function (the
caller never observes an error) and the messages before the failing one
remain transmitted with no retry. -/
def send_telemetry_data (cur connect_result : Option Unit)
    (fail_at : Option (Fin 4)) (now_ms : Nat) (x y : ℚ) (obj_cls : Nat)
    (lat : ℚ) (detected : Bool) : Option Unit × List MavMsg :=
  match ensure_mavlink cur connect_result with
  | none => (none, [])
  | some c =>
      let msgs := telemetry_msgs now_ms x y lat obj_cls detected
      (some c,
        match fail_at with
        | none => msgs
        | some k => msgs.take k.val)

/-- Claim C9: the field-name encoder always produces exactly 10 bytes —
the ASCII bytes truncated to at most 10 and null-padded ("vis_x0" pads
with four nulls, a 12-character name is cut to its first 10 bytes) — and
all four messages of one TelemetryFrame send carry the identical timestamp
`now_ms % 2^32`. -/
theorem name_bytes_and_shared_timestamp :
    (∀ s : String, (name_bytes s).length = 10) ∧
    (∀ (now_ms : Nat) (x y lat : ℚ) (obj_cls : Nat) (detected : Bool),
      ∀ m ∈ telemetry_msgs now_ms x y lat obj_cls detected,
        m.time_boot_ms = now_ms % 2^32) ∧
    name_bytes "vis_x0" = [118, 105, 115, 95, 120, 48, 0, 0, 0, 0] ∧
    name_bytes "abcdefghijkl" = "abcdefghij".data.map Char.toNat := by
  refine ⟨?_, ?_, by decide, by decide⟩
  · intro s
    unfold name_bytes
    have hle : (((s.data.map Char.toNat).filter (fun ch => ch < 128)).take 10).length ≤ 10 := by
      exact List.length_take_le 10 _
    simp only [List.length_append, List.length_replicate]
    omega
  · intro now_ms x y lat obj_cls detected m hm
    unfold telemetry_msgs at hm
    simp only [List.mem_cons, List.not_mem_nil, or_false] at hm
    rcases hm with rfl | rfl | rfl | rfl <;> rfl

/-- Witness for C9: the shared-timestamp property at one concrete send. -/
theorem name_bytes_and_shared_timestamp_witness :
    (⟨5000000000 % 2^32, name_bytes ("vis_x" ++ toString 0),
        MavVal.f 1⟩ : MavMsg).time_boot_ms = 5000000000 % 2^32 :=
  name_bytes_and_shared_timestamp.2.1 5000000000 1 2 3 0 true _
    (List.mem_cons_self _ _)

/-- Claim C10: one TelemetryFrame send is not atomic, yet the caller never
observes an error (the embedding is a total function): if the connection
cannot be established, nothing is sent; if no field send raises, all four
messages go out; if the `k`-th field send raises, exactly the `k` earlier
messages remain transmitted — a prefix of the full frame — and no message
is retried (each is transmitted at most as often as in the full frame). -/
theorem send_telemetry_data_partial (connect_result : Option Unit)
    (k : Fin 4) (now_ms : Nat) (x y : ℚ) (obj_cls : Nat) (lat : ℚ)
    (detected : Bool) :
    send_telemetry_data none none (some k) now_ms x y obj_cls lat detected =
      (none, []) ∧
    (send_telemetry_data (some ()) connect_result none now_ms x y obj_cls lat
        detected).2 = telemetry_msgs now_ms x y lat obj_cls detected ∧
    (send_telemetry_data (some ()) connect_result (some k) now_ms x y obj_cls
        lat detected).2 =
      (telemetry_msgs now_ms x y lat obj_cls detected).take k.val ∧
    (send_telemetry_data (some ()) connect_result (some k) now_ms x y obj_cls
        lat detected).2.length = k.val ∧
    (∀ m : MavMsg,
      (send_telemetry_data (some ()) connect_result (some k) now_ms x y obj_cls
          lat detected).2.count m ≤
        (telemetry_msgs now_ms x y lat obj_cls detected).count m) := by
  refine ⟨rfl, rfl, rfl, ?_, ?_⟩
  · have h4 : (telemetry_msgs now_ms x y lat obj_cls detected).length = 4 := rfl
    simp only [send_telemetry_data, ensure_mavlink, List.length_take, h4]
    omega
  · intro m
    exact List.Sublist.count_le (List.take_sublist _ _) m

/-! ## Detection Task loop (`run_tracker_in_thread`, main.py lines 132-181)

The only exception caught inside the loop is `Empty` from the bounded
`q.get(block=True, timeout=5)` (lines 137-142); the detector call
`model.track(frame, ...)` at line 145 is not inside any try/except, so an
exception raised there propagates out of `run_tracker_in_thread` and
terminates the thread.  One loop iteration is modelled by the event the
`q.get` produced: a timeout, or a frame together with the outcome of the
detector call on it. -/

/-- One iteration's input to the Detection Task loop: `timeout` models the
`Empty` exception from `q.get`, `frame r` a received frame whose detector
call returns `r` (`Except.ok` carries the frame's id, `Except.error` models
a raised exception). -/
inductive TrackEvent where
  | timeout : TrackEvent
  | frame : Except Unit Nat → TrackEvent
  deriving Repr

/-- The Detection Task loop over its incoming events: returns the ids of
the frames fully processed (telemetry, overlay and publish completed) and
whether the loop was terminated by a propagating detector exception.  A
`timeout` continues the loop; an erroring detector call aborts the loop —
no later event is processed. -/
def run_tracker_frames : List TrackEvent → List Nat × Bool
  | [] => ([], false)
  | .timeout :: rest => run_tracker_frames rest
  | .frame (.error _) :: _ => ([], true)
  | .frame (.ok d) :: rest =>
      let r := run_tracker_frames rest
      (d :: r.1, r.2)

/-- The frames whose detector call succeeds, in order. -/
def ok_frames (events : List TrackEvent) : List Nat :=
  events.filterMap (fun e =>
    match e with
    | .frame (.ok d) => some d
    | _ => none)

/-- Claim C5 counterexample: when the detector call raises on the first
frame, the Detection Task terminates by the exception and the following
good frame `7` is never processed — the claim asserts the frame is skipped
and the loop continues. -/
theorem run_tracker_detector_error_counterexample :
    run_tracker_frames [.frame (.error ()), .frame (.ok 7)] = ([], true) ∧
    7 ∉ (run_tracker_frames [.frame (.error ()), .frame (.ok 7)]).1 :=
  ⟨rfl, List.not_mem_nil 7⟩

/-- Claim C5 (amended): if the detection collaborator call raises while
processing a frame, the exception propagates and terminates that camera's
Detection Task: the frames processed are exactly the successful frames
before the first detector error, no later frame is processed, and the task
ends in the exception state.  (Each task is a function of its own camera's
events alone, so another camera's pipeline is unaffected.) -/
theorem run_tracker_detector_error_terminates (pre post : List TrackEvent)
    (hpre : ∀ e ∈ pre, ∀ u : Unit, e ≠ .frame (.error u)) :
    run_tracker_frames (pre ++ .frame (.error ()) :: post) =
      (ok_frames pre, true) := by
  induction pre with
  | nil => rfl
  | cons e rest ih =>
      have hrest : ∀ e' ∈ rest, ∀ u : Unit, e' ≠ .frame (.error u) := by
        intro e' he' u
        exact hpre e' (List.mem_cons_of_mem _ he') u
      match e with
      | .timeout =>
          simpa [run_tracker_frames, ok_frames] using ih hrest
      | .frame (.ok d) =>
          simp [run_tracker_frames, ok_frames, List.filterMap_cons, ih hrest]
      | .frame (.error u) =>
          exact absurd rfl (hpre _ (List.mem_cons_self _ _) u)

/-- Witness for the amended C5: a successful frame and a timeout before the
erroring frame; only the pre-error frame `1` is processed and the task ends
in the exception state. -/
theorem run_tracker_detector_error_terminates_witness :
    run_tracker_frames
        ([.frame (.ok 1), .timeout] ++ .frame (.error ()) :: [.frame (.ok 9)]) =
      (ok_frames [.frame (.ok 1), .timeout], true) :=
  run_tracker_detector_error_terminates [.frame (.ok 1), .timeout]
    [.frame (.ok 9)]
    (by
      intro e he u
      simp only [List.mem_cons, List.not_mem_nil, or_false] at he
      rcases he with rfl | rfl <;> simp)

/-! ## Termination-signal handler (`main.py` lines 59-64 and 257-259)

    def handle_signal(signalnum, stack_frame):
        raise SystemExit()

installed for SIGTERM; the `SystemExit` is caught on the main thread by
`except (KeyboardInterrupt, SystemExit)`, which sets
`is_interrupted = True`.  Program state is a record of the shared flag plus
representative other state. -/

structure ProgState where
  is_interrupted : Bool
  display_open : Bool
  threads_running : Nat
  deriving Repr, DecidableEq

inductive PyExc where
  | systemExit
  deriving Repr, DecidableEq

/-- `handle_signal` (main.py lines 59-61): raises `SystemExit`, touching no
state. -/
def handle_signal (_s : ProgState) : Except PyExc ProgState :=
  Except.error PyExc.systemExit

/-- The main thread's `except (KeyboardInterrupt, SystemExit)` clause
(main.py lines 257-259): sets the shared flag. -/
def main_interrupt_catch (s : ProgState) : ProgState :=
  { s with is_interrupted := true }

/-- Claim C6 counterexample: invoked on a state with the flag down, the
installed handler raises `SystemExit` — it neither returns normally nor
sets the shutdown flag itself, contradicting the claim that it sets the
flag and does not raise. -/
theorem handle_signal_raises_counterexample :
    handle_signal ⟨false, true, 5⟩ = Except.error PyExc.systemExit := rfl

/-- Claim C6 (amended): the installed handler raises `SystemExit` and has
no other effect — no I/O and no state modification; the shutdown flag is
set only afterwards, by the main thread's exception handler that catches
the `SystemExit` and flips `is_interrupted`, leaving all other state
unchanged. -/
theorem handle_signal_effect (s : ProgState) :
    handle_signal s = Except.error PyExc.systemExit ∧
    (∀ s', handle_signal s ≠ Except.ok s') ∧
    main_interrupt_catch s = { s with is_interrupted := true } ∧
    (main_interrupt_catch s).display_open = s.display_open ∧
    (main_interrupt_catch s).threads_running = s.threads_running := by
  refine ⟨rfl, ?_, rfl, rfl, rfl⟩
  intro s' h
  simp [handle_signal] at h

/-- Witness for the amended C6 at a concrete state. -/
theorem handle_signal_effect_witness :
    handle_signal ⟨false, true, 3⟩ = Except.error PyExc.systemExit ∧
    main_interrupt_catch ⟨false, true, 3⟩ = ⟨true, true, 3⟩ :=
  ⟨(handle_signal_effect ⟨false, true, 3⟩).1,
   (handle_signal_effect ⟨false, true, 3⟩).2.2.1⟩

/-! ## Snapshot gating (`run_tracker_in_thread`, main.py lines 125, 155-157)

    snapshot_time = time.time()          # at thread start
    ...
    if (time.time() - snapshot_time > 10):
        snapshotter.submit(results[0])
        snapshot_time = time.time()

One iteration is modelled by the pair `(tc, tr)` of the wall-clock values
of the two `time.time()` calls: `tc` at the gate check and `tr` at the
reset; the submission happens between the two.  The interval is kept as a
parameter `iv` (the code configures `10`). -/

/-- One loop iteration of the snapshot gate: state is the current
`snapshot_time` plus the list of emitted submissions, each recorded as its
`(check, reset)` time pair. -/
def snap_step (iv : ℚ) (st : ℚ × List (ℚ × ℚ)) (it : ℚ × ℚ) :
    ℚ × List (ℚ × ℚ) :=
  if it.1 - st.1 > iv then (it.2, st.2 ++ [it]) else st

/-- The snapshot gate over a whole run, starting from thread-start time
`t0`. -/
def snap_run (iv t0 : ℚ) (its : List (ℚ × ℚ)) : ℚ × List (ℚ × ℚ) :=
  its.foldl (snap_step iv) (t0, [])

/-- Invariant: emitted submissions are pairwise separated by more than
`iv` (each check time exceeds the previous reset time by more than `iv`),
and the current timer equals the reset time of the last submission, if
any. -/
def snap_inv (iv : ℚ) (st : ℚ × List (ℚ × ℚ)) : Prop :=
  List.Chain' (fun a b : ℚ × ℚ => iv < b.1 - a.2) st.2 ∧
  (∀ p, st.2.getLast? = some p → st.1 = p.2)

lemma snap_inv_step (iv : ℚ) (st : ℚ × List (ℚ × ℚ)) (it : ℚ × ℚ)
    (h : snap_inv iv st) : snap_inv iv (snap_step iv st it) := by
  obtain ⟨hchain, hlast⟩ := h
  unfold snap_step
  by_cases hc : it.1 - st.1 > iv
  · rw [if_pos hc]
    constructor
    · rw [List.chain'_append]
      refine ⟨hchain, List.chain'_singleton it, ?_⟩
      intro p hp y hy
      simp only [List.head?_cons, Option.mem_def, Option.some.injEq] at hy
      subst hy
      have hpe := hlast p hp
      rw [← hpe]
      exact hc
    · intro p hp
      rw [List.getLast?_concat] at hp
      obtain rfl : it = p := by injection hp
      rfl
  · rw [if_neg hc]
    exact ⟨hchain, hlast⟩

lemma snap_inv_foldl (iv : ℚ) (its : List (ℚ × ℚ)) :
    ∀ st : ℚ × List (ℚ × ℚ), snap_inv iv st →
      snap_inv iv (its.foldl (snap_step iv) st) := by
  induction its with
  | nil => intro st h; exact h
  | cons it rest ih =>
      intro st h
      exact ih _ (snap_inv_step iv st it h)

/-- Claim C8: across every sequence of processed frames, the snapshot
submissions emitted for one camera are separated by more than the
configured interval — every submission's gate-check time exceeds the
previous submission's timer-reset time by more than `iv`, so no two
submission instants (each lying between its check and reset times) are
within `iv` of each other — and the interval timer equals the reset time
of the last submission. -/
theorem snapshot_interval_gate (iv t0 : ℚ) (its : List (ℚ × ℚ)) :
    List.Chain' (fun a b : ℚ × ℚ => iv < b.1 - a.2) (snap_run iv t0 its).2 ∧
    (∀ p, (snap_run iv t0 its).2.getLast? = some p →
      (snap_run iv t0 its).1 = p.2) := by
  exact snap_inv_foldl iv its (t0, []) ⟨List.chain'_nil, by simp⟩

/-- Witness for C8: a concrete run with interval 10 starting at time 0;
iterations check at times 11, 20 and 23 — only the first and third submit,
and the timer ends at the last reset time 24. -/
theorem snapshot_interval_gate_witness :
    (snap_run 10 0 [(11, 12), (20, 21), (23, 24)]).2.getLast? =
      some (23, 24) ∧
    (snap_run 10 0 [(11, 12), (20, 21), (23, 24)]).1 = 24 := by
  have hlast : (snap_run 10 0 [(11, 12), (20, 21), (23, 24)]).2.getLast? =
      some (23, 24) := by
    norm_num [snap_run, snap_step]
  exact ⟨hlast,
    (snapshot_interval_gate 10 0 [(11, 12), (20, 21), (23, 24)]).2 (23, 24) hlast⟩

end SomarsVision
